import Mathlib

/-!
Verification development for the Capstone adaptive traffic-engineering
repository.  The definitions below are a shallow embedding of the two core
source files:

* `drl_agent.py` — the tabular Q-learning agent: configuration constants,
  the Q-table (a Python `defaultdict` mapping state tuples to numpy vectors
  of length `ACTION_SIZE`), epsilon-greedy action selection, the Bellman
  learning update with epsilon decay, the state discretizer
  `discretize_state`, the reward function `calculate_reward`, and the main
  episode loop.
* `traffic_engineering_controller.py` — the Ryu controller: the datapath
  registry, the port-stats store, the connect/disconnect handler, and the
  REST handlers `get_network_state` and `reroute_flow`.

Python floats are modelled as exact rationals (`ℚ`); Python ints as `ℤ`.
Randomness (`np.random.rand()`, `random.randrange`) is modelled by passing
the drawn values as explicit arguments.  Mutable dictionaries are modelled
as association lists; the `defaultdict(lambda: np.zeros(action_size))`
read-with-insert behaviour is modelled by `qGet`, which returns both the
vector read and the (possibly extended) table.
-/

/-- The three coarse traffic levels returned by `get_traffic_level` in
`drl_agent.py` (the Python code uses the strings low / medium / high). -/
inductive TrafficLevel
  | low
  | medium
  | high
deriving DecidableEq

/-- A discretized state: one `TrafficLevel` per monitored egress port, in the
fixed order (port 2, port 3), as built on line 114 of `drl_agent.py`. -/
abbrev AgentState := TrafficLevel × TrafficLevel

/-- One per-port record of a port-stats reply, with the two fields the agent
reads: `port.get ('port_no', 0)` and `port.get ('tx_bytes', 0)`. -/
structure PortRec where
  port_no : Int
  tx_bytes : Int
deriving DecidableEq

/-- The JSON body served by the controller on `/network_state`: a mapping
from stringified datapath id to the list of per-port records. -/
abbrev PortStatsMap := List (String × List PortRec)

/-- Python `dict.get k` on a string-keyed stats mapping (first binding wins;
Python dict keys are unique). -/
def dictFind : PortStatsMap → String → Option (List PortRec)
  | [], _ => none
  | p :: t, k => if p.1 = k then some p.2 else dictFind t k

/-- Python `port_stats.get (k, [])` — lookup with default empty list. -/
def dictGet (ps : PortStatsMap) (k : String) : List PortRec :=
  (dictFind ps k).getD []

-- Agent configuration constants (`drl_agent.py` lines 19 to 24).
abbrev ACTION_SIZE : Nat := 2

def LEARNING_RATE : ℚ := 1 / 10

def GAMMA : ℚ := 9 / 10

def EPSILON_START : ℚ := 1

def EPSILON_END : ℚ := 1 / 100

def EPSILON_DECAY : ℚ := 995 / 1000

/-- The parse loop of `discretize_state` (lines 88 to 98): starting from
`current_port_tx = (0, 0)`, each record whose `port_no` is 2 overwrites the
first component, each record whose `port_no` is 3 overwrites the second. -/
def parse_port_tx (s1_stats : List PortRec) : Int × Int :=
  s1_stats.foldl
    (fun cur p =>
      if p.port_no = 2 then (p.tx_bytes, cur.2)
      else if p.port_no = 3 then (cur.1, p.tx_bytes)
      else cur)
    (0, 0)

/-- Threshold bucketing of `get_traffic_level` (lines 106 to 112). -/
def get_traffic_level (throughput : Int) : TrafficLevel :=
  if throughput < 100000 then TrafficLevel.low
  else if throughput < 1000000 then TrafficLevel.medium
  else TrafficLevel.high

/-- The state discretizer (lines 80 to 117 of `drl_agent.py`).  Returns the
discretized state, the just-read current counters (the new baseline), and the
clamped raw throughput deltas.  The switch key is `str (SWITCH_DPID)`,
that is the string shown below. -/
def discretize_state (port_stats : PortStatsMap) (last_port_tx : Int × Int) :
    AgentState × (Int × Int) × (Int × Int) :=
  let s1_stats := dictGet port_stats ("1")
  let current_port_tx := parse_port_tx s1_stats
  let tA := current_port_tx.1 - last_port_tx.1
  let tB := current_port_tx.2 - last_port_tx.2
  let throughput_A := if tA < 0 then 0 else tA
  let throughput_B := if tB < 0 then 0 else tB
  ((get_traffic_level throughput_A, get_traffic_level throughput_B),
   current_port_tx,
   (throughput_A, throughput_B))

/-- The reward function (lines 119 to 123): `-1 * max (raw_throughput)`,
where `raw_throughput` is the two-element list of clamped deltas. -/
def calculate_reward (raw_throughput : Int × Int) : Int :=
  -1 * max raw_throughput.1 raw_throughput.2

/-- The Q-table: association list from state to numpy score vector (a list
of rationals).  A Python dict holds each key at most once; insertion order
is kept by appending. -/
abbrev QTable := List (AgentState × List ℚ)

/-- First-binding lookup in the Q-table dictionary. -/
def qFind : QTable → AgentState → Option (List ℚ)
  | [], _ => none
  | p :: t, s => if p.1 = s then some p.2 else qFind t s

/-- The `defaultdict` read `self.q_table [state]`: if the key is present
return its vector and the unchanged table; otherwise the key is inserted
with `np.zeros (action_size)` and that zero vector is returned. -/
def qGet (t : QTable) (s : AgentState) : List ℚ × QTable :=
  match qFind t s with
  | some v => (v, t)
  | none => (List.replicate ACTION_SIZE 0, t ++ [(s, List.replicate ACTION_SIZE 0)])

/-- Replacing the vector bound to a key (the effect of the in-place numpy
write `self.q_table [state] [action] = new_q` on the dictionary view). -/
def qSet (t : QTable) (s : AgentState) (v : List ℚ) : QTable :=
  t.map fun p => if p.1 = s then (p.1, v) else p

/-- numpy `np.max` on a nonempty vector (the agent only applies it to
vectors of length `ACTION_SIZE`). -/
def npMax : List ℚ → ℚ
  | [] => 0
  | x :: xs => xs.foldl max x

/-- Accumulator loop for `np.argmax`: index of the first strictly greater
element wins, so ties keep the earlier (lower) index. -/
def argmaxGo : Nat → ℚ → Nat → List ℚ → Nat
  | _, _, bi, [] => bi
  | i, best, bi, x :: xs =>
      if best < x then argmaxGo (i + 1) x i xs else argmaxGo (i + 1) best bi xs

/-- numpy `np.argmax`: the lowest index attaining the maximum. -/
def npArgmax : List ℚ → Nat
  | [] => 0
  | x :: xs => argmaxGo 1 x 0 xs

/-- The mutable state of `QLearningAgent`: the Q-table dictionary and the
current exploration rate. -/
structure Agent where
  q_table : QTable
  epsilon : ℚ

/-- The agent as constructed in `main`: empty table, `EPSILON_START`. -/
def initAgent : Agent := { q_table := [], epsilon := EPSILON_START }

/-- The epsilon update at the end of `QLearningAgent.learn` (lines 67, 68):
decay is applied only while epsilon is strictly above `EPSILON_END`. -/
def epsDecayStep (e : ℚ) : ℚ :=
  if EPSILON_END < e then e * EPSILON_DECAY else e

/-- `QLearningAgent.act` (lines 44 to 52).  The value `r` stands for the
draw of `np.random.rand ()` and `randAct` for the draw of
`random.randrange (action_size)`; the code explores when `r <= epsilon`.
Returns the chosen action index together with the agent after the
`defaultdict` read (which may insert a zero vector for `s`). -/
def act (a : Agent) (s : AgentState) (r : ℚ) (randAct : Fin ACTION_SIZE) :
    Nat × Agent :=
  if r ≤ a.epsilon then (randAct.val, a)
  else
    let g := qGet a.q_table s
    (npArgmax g.1, { a with q_table := g.2 })

/-- `QLearningAgent.learn` (lines 54 to 68), in Python evaluation order:
read `current_q` (inserting `s` if fresh), read the vector of `next_state`
(inserting it if fresh), compute `new_q`, write it at index `action` of the
vector of `s`, then apply the conditional epsilon decay. -/
def learn (a : Agent) (s : AgentState) (action : Nat) (reward : ℚ)
    (next_state : AgentState) : Agent :=
  let g1 := qGet a.q_table s
  let current_q := g1.1.getD action 0
  let g2 := qGet g1.2 next_state
  let next_max_q := npMax g2.1
  let new_q := (1 - LEARNING_RATE) * current_q
      + LEARNING_RATE * (reward + GAMMA * next_max_q)
  let g3 := qGet g2.2 s
  { q_table := qSet g3.2 s (g3.1.set action new_q),
    epsilon := epsDecayStep a.epsilon }

/-- The value semantics of the Q-table: the score of action `i` in state
`s`, with the lazy all-zero default for unseen states. -/
def Qval (t : QTable) (s : AgentState) (i : Nat) : ℚ :=
  ((qFind t s).getD (List.replicate ACTION_SIZE 0)).getD i 0

/-- Well-formedness of a Q-table: every stored vector has length
`ACTION_SIZE` (numpy vectors are created only by `np.zeros (action_size)`
and mutated in place). -/
def WF (t : QTable) : Prop := ∀ p ∈ t, (p.2).length = ACTION_SIZE

/-- One operation of the agent, for reasoning about arbitrary sequences of
`act` and `learn` calls. -/
inductive AgentOp
  | opAct : AgentState → ℚ → Fin ACTION_SIZE → AgentOp
  | opLearn : AgentState → Nat → ℚ → AgentState → AgentOp

/-- Apply one agent operation. -/
def applyOp (a : Agent) : AgentOp → Agent
  | AgentOp.opAct s r rnd => (act a s r rnd).2
  | AgentOp.opLearn s action rw s2 => learn a s action rw s2

/-- Apply a sequence of agent operations. -/
def runOps (a : Agent) : List AgentOp → Agent
  | [] => a
  | op :: ops => runOps (applyOp a op) ops

/-- The per-episode mutable state of the main loop: the agent and the
baseline counters `last_port_tx`. -/
structure EpState where
  agent : Agent
  last_port_tx : Int × Int

/-- One iteration of the episode loop in `main` (lines 187 to 223).
`stats1` is the result of the first telemetry read, `stats2` of the second;
`none` models a failed read (`get_network_stats` returning `None`), on
which the loop `continue`s.  `r` and `rnd` are the random draws consumed by
`act`.  Flow-rule installation is an external effect without influence on
the agent state. -/
def runEpisode (st : EpState) (stats1 stats2 : Option PortStatsMap)
    (r : ℚ) (rnd : Fin ACTION_SIZE) : EpState :=
  match stats1 with
  | none => st
  | some ps1 =>
    let d1 := discretize_state ps1 st.last_port_tx
    let ar := act st.agent d1.1 r rnd
    match stats2 with
    | none => { st with agent := ar.2 }
    | some ps2 =>
      let d2 := discretize_state ps2 d1.2.1
      let reward : ℚ := ((calculate_reward d2.2.2 : ℤ) : ℚ)
      { agent := learn ar.2 d1.1 ar.1 reward d2.1,
        last_port_tx := d2.2.1 }

/-- Agent state after `n` completed episodes, tracking only the epsilon
trajectory (states and rewards do not influence the decay, so fixed dummy
arguments are passed to `learn`). -/
def agentIter : Nat → Agent
  | 0 => initAgent
  | n + 1 =>
      learn (agentIter n) (TrafficLevel.low, TrafficLevel.low) 0 0
        (TrafficLevel.low, TrafficLevel.low)

-- ----------------------------------------------------------------------
-- Controller model (`traffic_engineering_controller.py`).
-- ----------------------------------------------------------------------

/-- The controller state: the datapath registry `self.datapaths` (modelled
by its key set, a duplicate-free list of dpids) and the stats store
`self.port_stats` (dpid-keyed association list). -/
structure Controller where
  datapaths : List Int
  port_stats : List (Int × List PortRec)

/-- The two dispatcher states handled by `_state_change_handler`. -/
inductive DispPhase
  | mainPhase
  | deadPhase

/-- `_state_change_handler` (lines 85 to 94): on MAIN register the dpid if
absent, on DEAD delete it if present.  Only `self.datapaths` is touched. -/
def state_change_handler (c : Controller) (dpid : Int) (ph : DispPhase) :
    Controller :=
  match ph with
  | DispPhase.mainPhase =>
      if dpid ∈ c.datapaths then c
      else { c with datapaths := c.datapaths ++ [dpid] }
  | DispPhase.deadPhase =>
      if dpid ∈ c.datapaths then
        { c with datapaths := c.datapaths.erase dpid }
      else c

/-- Replace-or-insert on the dpid-keyed stats store (Python dict
assignment). -/
def intDictSet : List (Int × List PortRec) → Int → List PortRec →
    List (Int × List PortRec)
  | [], k, v => [(k, v)]
  | p :: t, k, v => if p.1 = k then (k, v) :: t else p :: intDictSet t k v

/-- First-binding lookup on the dpid-keyed stats store. -/
def intDictFind : List (Int × List PortRec) → Int → Option (List PortRec)
  | [], _ => none
  | p :: t, k => if p.1 = k then some p.2 else intDictFind t k

/-- `_port_stats_reply_handler` (lines 116 to 120): store the reply body
under the dpid. -/
def port_stats_reply_handler (c : Controller) (dpid : Int)
    (body : List PortRec) : Controller :=
  { c with port_stats := intDictSet c.port_stats dpid body }

/-- The `/network_state` REST handler (lines 132 to 135): it returns
`self.port_stats` wholesale. -/
def get_network_state (c : Controller) : List (Int × List PortRec) :=
  c.port_stats

/-- One OUTPUT action dictionary of a reroute request. -/
structure ActionField where
  typ : String
  port : Option Int
deriving DecidableEq

/-- The JSON body of a `/reroute_flow` request, with the same optional
fields the handler reads via `data.get`. -/
structure RerouteReq where
  dpid : Option Int
  priority : Option Int
  matchf : List (String × Int)
  actions : List ActionField

/-- An `OFPFlowMod` message as built by `add_flow` for a reroute request:
the translated flow rule, including the bounded `hard_timeout`. -/
structure FlowMod where
  dpid : Int
  priority : Int
  matchf : List (String × Int)
  outputs : List (Option Int)
  idle_timeout : Int
  hard_timeout : Int
deriving DecidableEq

/-- The outcome of `/reroute_flow`: `notFound` is the structured 404 error
body (Datapath not found), `ok` the success acknowledgment. -/
inductive RerouteResp
  | notFound
  | ok
deriving DecidableEq

/-- The `/reroute_flow` REST handler (lines 137 to 167): look up the dpid in
the registry; on a miss answer the structured 404 and send nothing; on a
hit translate the OUTPUT actions, and send exactly one flow-mod with
priority defaulted to 10, `idle_timeout` 0 and `hard_timeout` 10.  The
controller state is returned unchanged in every branch (the handler never
assigns to it). -/
def reroute_flow (c : Controller) (req : RerouteReq) :
    Controller × RerouteResp × List FlowMod :=
  match req.dpid with
  | none => (c, RerouteResp.notFound, [])
  | some d =>
    if d ∈ c.datapaths then
      (c, RerouteResp.ok,
        [{ dpid := d,
           priority := req.priority.getD 10,
           matchf := req.matchf,
           outputs := req.actions.filterMap
             (fun a => if a.typ = "OUTPUT" then some a.port else none),
           idle_timeout := 0,
           hard_timeout := 10 }])
    else (c, RerouteResp.notFound, [])

-- ----------------------------------------------------------------------
-- Helper lemmas about the Q-table dictionary.
-- ----------------------------------------------------------------------

/-- Lookup distributes over append when the key is found on the left. -/
lemma qFind_append_some {t : QTable} {s : AgentState} {v : List ℚ}
    (h : qFind t s = some v) (u : QTable) : qFind (t ++ u) s = some v := by
  induction t with
  | nil => simp [qFind] at h
  | cons p t ih =>
      rw [qFind] at h
      by_cases hp : p.1 = s
      · simp only [List.cons_append, qFind, hp, if_pos] at h ⊢
        exact h
      · simp only [List.cons_append, qFind, hp, if_neg, if_false] at h ⊢
        exact ih h

/-- Lookup distributes over append when the key is absent on the left. -/
lemma qFind_append_none {t : QTable} {s : AgentState}
    (h : qFind t s = none) (u : QTable) : qFind (t ++ u) s = qFind u s := by
  induction t with
  | nil => simp
  | cons p t ih =>
      rw [qFind] at h
      by_cases hp : p.1 = s
      · simp [hp] at h
      · simp only [List.cons_append, qFind, hp, if_neg, if_false] at h ⊢
        exact ih h

/-- A found binding is a member of the table. -/
lemma qFind_mem {t : QTable} {s : AgentState} {v : List ℚ}
    (h : qFind t s = some v) : (s, v) ∈ t := by
  induction t with
  | nil => simp [qFind] at h
  | cons p t ih =>
      rw [qFind] at h
      by_cases hp : p.1 = s
      · obtain ⟨a, b⟩ := p
        rw [if_pos hp] at h
        injection h with h2
        subst h2
        subst hp
        exact List.mem_cons_self _ _
      · simp only [hp, if_false] at h
        exact List.mem_cons_of_mem _ (ih h)

/-- The vector returned by the defaultdict read. -/
lemma qGet_fst (t : QTable) (s : AgentState) :
    (qGet t s).1 = (qFind t s).getD (List.replicate ACTION_SIZE 0) := by
  rw [qGet]
  cases h : qFind t s <;> simp

/-- After a defaultdict read the key is bound to the returned vector. -/
lemma qFind_qGet_self (t : QTable) (s : AgentState) :
    qFind (qGet t s).2 s = some (qGet t s).1 := by
  rw [qGet]
  cases h : qFind t s with
  | none =>
      simp only
      rw [qFind_append_none h]
      simp [qFind]
  | some v => simpa using h

/-- A defaultdict read leaves the bindings of other keys unchanged. -/
lemma qFind_qGet_ne (t : QTable) {s s2 : AgentState} (hne : s2 ≠ s) :
    qFind (qGet t s).2 s2 = qFind t s2 := by
  rw [qGet]
  cases h : qFind t s with
  | none =>
      simp only
      cases h2 : qFind t s2 with
      | none =>
          rw [qFind_append_none h2]
          simp [qFind, Ne.symm hne]
      | some w => exact qFind_append_some h2 _
  | some v => simp

/-- Writing a key rewrites exactly that binding. -/
lemma qFind_qSet_self (t : QTable) (s : AgentState) (v : List ℚ) :
    qFind (qSet t s v) s = (qFind t s).map (fun _ => v) := by
  induction t with
  | nil => simp [qFind, qSet]
  | cons p t ih =>
      by_cases hp : p.1 = s
      · simp [qSet, qFind, hp]
      · simp only [qSet, List.map_cons, if_neg hp, qFind, hp, if_false]
        exact ih

/-- Writing a key leaves the bindings of other keys unchanged. -/
lemma qFind_qSet_ne (t : QTable) (v : List ℚ) {s s2 : AgentState}
    (hne : s2 ≠ s) : qFind (qSet t s v) s2 = qFind t s2 := by
  induction t with
  | nil => simp [qFind, qSet]
  | cons p t ih =>
      have hq : qSet (p :: t) s v
          = (if p.1 = s then (p.1, v) else p) :: qSet t s v := rfl
      rw [hq]
      by_cases hp : p.1 = s
      · have hns2 : ¬ p.1 = s2 := by
          rw [hp]
          exact fun h => hne h.symm
        rw [if_pos hp, qFind, qFind, if_neg hns2, if_neg hns2]
        exact ih
      · rw [if_neg hp, qFind, qFind]
        by_cases hp2 : p.1 = s2
        · rw [if_pos hp2, if_pos hp2]
        · rw [if_neg hp2, if_neg hp2]
          exact ih

/-- Every index of a replicated zero vector reads zero. -/
lemma replicate_getD (n i : Nat) : (List.replicate n (0:ℚ)).getD i 0 = 0 := by
  induction n generalizing i with
  | zero => simp
  | succ m ih =>
      cases i with
      | zero => simp [List.replicate]
      | succ j =>
          rw [List.replicate]
          exact ih j

/-- A defaultdict read never changes the value semantics of the table. -/
lemma Qval_qGet (t : QTable) (s s2 : AgentState) (i : Nat) :
    Qval (qGet t s).2 s2 i = Qval t s2 i := by
  by_cases hne : s2 = s
  · subst hne
    rw [Qval, Qval, qFind_qGet_self, qGet_fst]
    cases h : qFind t s2 <;> simp
  · rw [Qval, Qval, qFind_qGet_ne t hne]

/-- A defaultdict read preserves well-formedness. -/
lemma WF_qGet {t : QTable} (hwf : WF t) (s : AgentState) :
    WF (qGet t s).2 := by
  rw [qGet]
  cases h : qFind t s with
  | none =>
      intro p hp
      rcases List.mem_append.mp hp with hl | hr
      · exact hwf p hl
      · rcases List.mem_singleton.mp hr with rfl
        simp
  | some v => exact hwf

/-- The vector returned by a defaultdict read of a well-formed table has
length `ACTION_SIZE`. -/
lemma qGet_fst_length {t : QTable} (hwf : WF t) (s : AgentState) :
    ((qGet t s).1).length = ACTION_SIZE := by
  rw [qGet]
  cases h : qFind t s with
  | none => simp
  | some v => exact hwf _ (qFind_mem h)

/-- Writing a vector of the right length preserves well-formedness. -/
lemma WF_qSet {t : QTable} (hwf : WF t) (s : AgentState) {v : List ℚ}
    (hv : v.length = ACTION_SIZE) : WF (qSet t s v) := by
  intro p hp
  rcases List.mem_map.mp hp with ⟨q, hq, hqp⟩
  by_cases h : q.1 = s
  · rw [if_pos h] at hqp
    rw [← hqp]
    exact hv
  · rw [if_neg h] at hqp
    rw [← hqp]
    exact hwf q hq

/-- A list of length two is literally a pair. -/
lemma length_two_eq {v : List ℚ} (h : v.length = 2) : ∃ x y, v = [x, y] := by
  cases v with
  | nil => simp at h
  | cons x v =>
      cases v with
      | nil => simp at h
      | cons y v =>
          cases v with
          | nil => exact ⟨x, y, rfl⟩
          | cons z v =>
              simp only [List.length_cons] at h
              omega

/-- numpy max of a two-element vector. -/
lemma npMax_pair (x y : ℚ) : npMax [x, y] = max x y := rfl

/-- numpy max of a length-two vector, through indexed reads. -/
lemma npMax_of_length_two {v : List ℚ} (h : v.length = 2) :
    npMax v = max (v.getD 0 0) (v.getD 1 0) := by
  obtain ⟨x, y, rfl⟩ := length_two_eq h
  rfl

/-- numpy argmax of a two-element vector: index 1 only on a strict
increase, hence ties resolve to index 0. -/
lemma npArgmax_pair (x y : ℚ) : npArgmax [x, y] = if x < y then 1 else 0 := by
  rw [npArgmax, argmaxGo]
  split <;> rfl

/-- The value at the argmax index of a two-element vector is its max. -/
lemma npArgmax_pair_getD (x y : ℚ) :
    [x, y].getD (npArgmax [x, y]) 0 = max x y := by
  rw [npArgmax_pair]
  by_cases h : x < y
  · rw [if_pos h]
    exact (max_eq_right (le_of_lt h)).symm
  · rw [if_neg h]
    exact (max_eq_left (not_lt.mp h)).symm

/-- Reading back the just-written index of a two-element vector. -/
lemma getD_pair_set_self (x y q : ℚ) {i : Nat} (h : i < 2) :
    ([x, y].set i q).getD i 0 = q := by
  match i, h with
  | 0, _ => rfl
  | 1, _ => rfl

/-- Reading any other index of a two-element vector after a write. -/
lemma getD_pair_set_ne (x y q : ℚ) {i j : Nat} (h : j ≠ i) :
    ([x, y].set i q).getD j 0 = [x, y].getD j 0 := by
  match i, j, h with
  | 0, 0, h => exact absurd rfl h
  | 0, 1, _ => rfl
  | 0, j + 2, _ => rfl
  | 1, 0, _ => rfl
  | 1, 1, h => exact absurd rfl h
  | 1, j + 2, _ => rfl
  | i + 2, 0, _ => rfl
  | i + 2, 1, _ => rfl
  | i + 2, j + 2, _ =>
      show ([x, y].set (i + 2) q).getD (j + 2) 0 = [x, y].getD (j + 2) 0
      rfl

/-- The defaultdict vector read, expressed through the value semantics. -/
lemma qGet_fst_getD (t : QTable) (s : AgentState) (i : Nat) :
    ((qGet t s).1).getD i 0 = Qval t s i := by
  rw [qGet_fst]
  rfl

/-- A binding surviving a later defaultdict read of any key. -/
lemma qFind_qGet_found {t : QTable} {s : AgentState} {v : List ℚ}
    (h : qFind t s = some v) (s2 : AgentState) :
    qFind (qGet t s2).2 s = some v := by
  by_cases he : s = s2
  · subst he
    rw [qFind_qGet_self, qGet_fst, h]
    rfl
  · rw [qFind_qGet_ne t he]
    exact h

/-- The epsilon field produced by `learn` is the conditional decay of the
previous epsilon, whatever the states, action and reward are. -/
lemma learn_epsilon (a : Agent) (s : AgentState) (action : Nat) (r : ℚ)
    (s2 : AgentState) : (learn a s action r s2).epsilon = epsDecayStep a.epsilon := rfl

/-- Closed form of the epsilon trajectory: through episode 919 the decay
guard holds at every step, so epsilon after `n` completed episodes is
exactly `EPSILON_DECAY ^ n`. -/
lemma agentIter_epsilon_pow : ∀ n, n ≤ 919 →
    (agentIter n).epsilon = EPSILON_DECAY ^ n := by
  intro n
  induction n with
  | zero =>
      intro _
      simp [agentIter, initAgent, EPSILON_START]
  | succ k ih =>
      intro hk
      have hk9 : k ≤ 919 := by omega
      have hkk : k ≤ 918 := by omega
      have he : (agentIter k).epsilon = EPSILON_DECAY ^ k := ih hk9
      have hguard : EPSILON_END < (agentIter k).epsilon := by
        rw [he]
        have h1 : (EPSILON_DECAY) ^ 918 ≤ EPSILON_DECAY ^ k :=
          pow_le_pow_of_le_one (by norm_num [EPSILON_DECAY])
            (by norm_num [EPSILON_DECAY]) hkk
        have h2 : EPSILON_END < (EPSILON_DECAY) ^ 918 := by
          norm_num [EPSILON_DECAY, EPSILON_END]
        linarith
      rw [agentIter, learn_epsilon, epsDecayStep, if_pos hguard, he, ← pow_succ]

-- ----------------------------------------------------------------------
-- Claim theorems.
-- ----------------------------------------------------------------------

/-- A parse fold over records naming neither monitored port keeps the
accumulator. -/
lemma parse_foldl_acc (l : List PortRec) (acc : Int × Int)
    (h : ∀ p ∈ l, p.port_no ≠ 2 ∧ p.port_no ≠ 3) :
    l.foldl
      (fun cur p =>
        if p.port_no = 2 then (p.tx_bytes, cur.2)
        else if p.port_no = 3 then (cur.1, p.tx_bytes)
        else cur)
      acc = acc := by
  induction l generalizing acc with
  | nil => rfl
  | cons p l ih =>
      have hp := h p (List.mem_cons_self _ _)
      rw [List.foldl_cons, if_neg hp.1, if_neg hp.2]
      exact ih acc (fun q hq => h q (List.mem_cons_of_mem _ hq))

/-- Claim C2: for every previous baseline and every current stats mapping,
`discretize_state` computes, for each of the two monitored ports, the delta
`max 0 (current_bytes - previous_bytes)` (a counter reset clamps to 0),
buckets each delta with low below 100000, medium from 100000 below 1000000,
high from 1000000 on, and returns the level tuple in fixed port order
together with the just-read current counters as the new baseline.  The
stated boundary values 99999, 100000, 999999 and 1000000 land in low,
medium, medium and high. -/
theorem discretize_state_spec :
    (∀ (ps : PortStatsMap) (last : Int × Int),
      discretize_state ps last =
        ((get_traffic_level (max 0 ((parse_port_tx (dictGet ps ("1"))).1 - last.1)),
          get_traffic_level (max 0 ((parse_port_tx (dictGet ps ("1"))).2 - last.2))),
         parse_port_tx (dictGet ps ("1")),
         (max 0 ((parse_port_tx (dictGet ps ("1"))).1 - last.1),
          max 0 ((parse_port_tx (dictGet ps ("1"))).2 - last.2))))
  ∧ (∀ d : Int,
      (get_traffic_level d = TrafficLevel.low ↔ d < 100000)
      ∧ (get_traffic_level d = TrafficLevel.medium ↔ 100000 ≤ d ∧ d < 1000000)
      ∧ (get_traffic_level d = TrafficLevel.high ↔ 1000000 ≤ d))
  ∧ get_traffic_level 99999 = TrafficLevel.low
  ∧ get_traffic_level 100000 = TrafficLevel.medium
  ∧ get_traffic_level 999999 = TrafficLevel.medium
  ∧ get_traffic_level 1000000 = TrafficLevel.high := by
  have hmax : ∀ x : Int, (if x < 0 then 0 else x) = max 0 x := by
    intro x
    by_cases h : x < 0
    · rw [if_pos h]
      exact (max_eq_left h.le).symm
    · rw [if_neg h]
      exact (max_eq_right (not_lt.mp h)).symm
  refine ⟨?_, ?_, ?_, ?_, ?_, ?_⟩
  · intro ps last
    simp only [discretize_state]
    rw [hmax, hmax]
  · intro d
    rw [get_traffic_level]
    by_cases h1 : d < 100000
    · rw [if_pos h1]
      refine ⟨?_, ?_, ?_⟩ <;> simp <;> omega
    · rw [if_neg h1]
      by_cases h2 : d < 1000000
      · rw [if_pos h2]
        refine ⟨?_, ?_, ?_⟩ <;> simp <;> omega
      · rw [if_neg h2]
        refine ⟨?_, ?_, ?_⟩ <;> simp <;> omega
  · rfl
  · rfl
  · rfl
  · rfl

/-- Claim C10: if the stats mapping has no entry for switch key 1, or its
entry lists neither monitored port (2 or 3), then for every (non-negative)
previous baseline the discretizer returns state (low, low), raw deltas
(0, 0) and a zero baseline, without any error. -/
theorem discretize_state_missing_device (ps : PortStatsMap) (last : Int × Int)
    (hmiss : dictFind ps ("1") = none ∨
      ∀ p ∈ dictGet ps ("1"), p.port_no ≠ 2 ∧ p.port_no ≠ 3)
    (hA : 0 ≤ last.1) (hB : 0 ≤ last.2) :
    discretize_state ps last =
      ((TrafficLevel.low, TrafficLevel.low), (0, 0), (0, 0)) := by
  have hparse : parse_port_tx (dictGet ps ("1")) = (0, 0) := by
    rcases hmiss with h | h
    · rw [dictGet, h]
      rfl
    · rw [parse_port_tx]
      exact parse_foldl_acc _ _ h
  have hifA : (if ((0:Int), (0:Int)).1 - last.1 < 0 then 0
      else ((0:Int), (0:Int)).1 - last.1) = 0 := by
    split <;> omega
  have hifB : (if ((0:Int), (0:Int)).2 - last.2 < 0 then 0
      else ((0:Int), (0:Int)).2 - last.2) = 0 := by
    split <;> omega
  simp only [discretize_state, hparse, hifA, hifB]
  rfl

/-- Claim C5: with both clamped next-state deltas non-negative, the reward
is exactly the negated maximum of the two deltas, hence never positive. -/
theorem calculate_reward_spec (a b : Int) (hA : 0 ≤ a) (hB : 0 ≤ b) :
    calculate_reward (a, b) = -(max a b) ∧ calculate_reward (a, b) ≤ 0 := by
  constructor
  · rw [calculate_reward]
    exact neg_one_mul _
  · rw [calculate_reward, neg_one_mul]
    have h : (0:Int) ≤ max a b := le_max_of_le_left hA
    exact neg_nonpos.mpr h

/-- Witness for C5 at the deltas from the specification example:
next-deltas (200000, 50000) give reward -200000. -/
theorem calculate_reward_spec_witness :
    (0:Int) ≤ 200000 ∧ (0:Int) ≤ 50000 ∧
    (calculate_reward (200000, 50000) = -(max 200000 50000)
      ∧ calculate_reward (200000, 50000) ≤ 0) ∧
    calculate_reward (200000, 50000) = -200000 := by
  refine ⟨by decide, by decide, calculate_reward_spec 200000 50000 (by decide) (by decide), ?_⟩
  simp [calculate_reward, max_def]

/-- Claim C1 (amended): epsilon is non-increasing across completed
episodes, each `learn` call applies the decay step exactly once and
independently of reward and states, but the decay is conditional (only
while epsilon is strictly above `EPSILON_END`), so epsilon is bounded
below by `EPSILON_END * EPSILON_DECAY` rather than by `EPSILON_END`. -/
theorem epsilon_decay_props (a : Agent) (s : AgentState) (action : Nat)
    (r : ℚ) (s2 : AgentState) (e : ℚ) :
    (learn a s action r s2).epsilon = epsDecayStep a.epsilon
  ∧ epsDecayStep e ≤ e
  ∧ (EPSILON_END * EPSILON_DECAY ≤ e →
      EPSILON_END * EPSILON_DECAY ≤ epsDecayStep e) := by
  refine ⟨rfl, ?_, ?_⟩
  · rw [epsDecayStep]
    by_cases h : EPSILON_END < e
    · rw [if_pos h]
      have h0 : (0:ℚ) ≤ e := by
        have : (0:ℚ) < EPSILON_END := by norm_num [EPSILON_END]
        linarith
      calc e * EPSILON_DECAY ≤ e * 1 :=
            mul_le_mul_of_nonneg_left (by norm_num [EPSILON_DECAY]) h0
        _ = e := mul_one e
    · rw [if_neg h]
  · intro hfloor
    rw [epsDecayStep]
    by_cases h : EPSILON_END < e
    · rw [if_pos h]
      have hd : (0:ℚ) ≤ EPSILON_DECAY := by norm_num [EPSILON_DECAY]
      exact mul_le_mul_of_nonneg_right (le_of_lt h) hd
    · rw [if_neg h]
      exact hfloor

/-- Witness for the amended C1 at the exact lower bound. -/
theorem epsilon_decay_props_witness :
    EPSILON_END * EPSILON_DECAY ≤ EPSILON_END * EPSILON_DECAY ∧
    EPSILON_END * EPSILON_DECAY ≤ epsDecayStep (EPSILON_END * EPSILON_DECAY) :=
  ⟨le_refl _,
   (epsilon_decay_props initAgent (TrafficLevel.low, TrafficLevel.low) 0 0
      (TrafficLevel.low, TrafficLevel.low)
      (EPSILON_END * EPSILON_DECAY)).2.2 (le_refl _)⟩

/-- Counterexample to C1 as stated: after 919 completed episodes (starting
from `EPSILON_START`) epsilon has fallen strictly below the configured
floor `EPSILON_END`, because the guard decays epsilon once more from just
above the floor to below it. -/
theorem epsilon_below_floor : (agentIter 919).epsilon < EPSILON_END := by
  rw [agentIter_epsilon_pow 919 (le_refl _)]
  norm_num [EPSILON_DECAY, EPSILON_END]

/-- Claim C9 (amended): on device disconnect only the datapath registry
entry is deleted; the port-stats store, and hence the body served by the
network-state read, is unchanged and still carries the last counters of
the disconnected device. -/
theorem disconnect_keeps_stats (c : Controller) (d : Int) :
    (state_change_handler c d DispPhase.deadPhase).port_stats = c.port_stats
  ∧ get_network_state (state_change_handler c d DispPhase.deadPhase)
      = get_network_state c
  ∧ (state_change_handler c d DispPhase.deadPhase).datapaths
      = c.datapaths.erase d := by
  rw [state_change_handler]
  by_cases h : d ∈ c.datapaths
  · rw [if_pos h]
    exact ⟨rfl, rfl, rfl⟩
  · rw [if_neg h]
    exact ⟨rfl, rfl, (List.erase_of_not_mem h).symm⟩

/-- Counterexample to C9 as stated: connect switch 1, store one stats
reply for it, then disconnect it; the datapath registry no longer knows
the device, yet the network-state read still returns its counters. -/
theorem disconnect_stale_read :
    ((1 : Int) ∉ (state_change_handler
        (port_stats_reply_handler
          (state_change_handler ⟨[], []⟩ 1 DispPhase.mainPhase) 1
          [{ port_no := 2, tx_bytes := 500 }])
        1 DispPhase.deadPhase).datapaths)
  ∧ intDictFind (get_network_state (state_change_handler
        (port_stats_reply_handler
          (state_change_handler ⟨[], []⟩ 1 DispPhase.mainPhase) 1
          [{ port_no := 2, tx_bytes := 500 }])
        1 DispPhase.deadPhase)) 1
      = some [{ port_no := 2, tx_bytes := 500 }] := by
  constructor
  · decide
  · rfl

/-- Claim C8: an install-reroute request naming an unregistered device id
gets the structured not-found failure, sends no flow-mod to any device,
and leaves the controller state unchanged. -/
theorem reroute_unknown_device (c : Controller) (req : RerouteReq) (d : Int)
    (hd : req.dpid = some d) (hreg : d ∉ c.datapaths) :
    reroute_flow c req = (c, RerouteResp.notFound, []) := by
  rw [reroute_flow, hd]
  simp only [if_neg hreg]

/-- Witness for C8: a request for dpid 1 against a controller with an
empty registry. -/
theorem reroute_unknown_device_witness :
    ({ dpid := some 1, priority := none, matchf := [], actions := [] }
        : RerouteReq).dpid = some 1
  ∧ (1 : Int) ∉ (⟨[], []⟩ : Controller).datapaths
  ∧ reroute_flow ⟨[], []⟩
      { dpid := some 1, priority := none, matchf := [], actions := [] }
      = (⟨[], []⟩, RerouteResp.notFound, []) := by
  refine ⟨rfl, by decide, ?_⟩
  exact reroute_unknown_device ⟨[], []⟩ _ 1 rfl (by decide)

/-- Claim C7: the selection is epsilon-greedy.  When the uniform draw `r`
(of `np.random.rand ()`, uniform on the unit interval, so the explore
branch has probability epsilon) satisfies `r <= epsilon`, the result is
the uniformly drawn index, always inside the action space; otherwise it is
the numpy argmax of the score vector of the current state, and on
two-element vectors argmax picks index 1 only on a strict increase, so
ties go to the lowest index and an all-equal vector yields action 0. -/
theorem act_epsilon_greedy (a : Agent) (s : AgentState) (r : ℚ)
    (rnd : Fin ACTION_SIZE) :
    (r ≤ a.epsilon →
      (act a s r rnd).1 = rnd.val ∧ (act a s r rnd).1 < ACTION_SIZE)
  ∧ (a.epsilon < r → (act a s r rnd).1
      = npArgmax ((qFind a.q_table s).getD (List.replicate ACTION_SIZE 0)))
  ∧ (∀ x y : ℚ, npArgmax [x, y] = if x < y then 1 else 0)
  ∧ (∀ x y : ℚ, [x, y].getD (npArgmax [x, y]) 0 = max x y)
  ∧ (∀ x : ℚ, npArgmax [x, x] = 0) := by
  refine ⟨?_, ?_, npArgmax_pair, npArgmax_pair_getD, ?_⟩
  · intro h
    rw [act, if_pos h]
    exact ⟨rfl, rnd.isLt⟩
  · intro h
    rw [act, if_neg (not_le.mpr h)]
    show npArgmax (qGet a.q_table s).1 = _
    rw [qGet_fst]
  · intro x
    rw [npArgmax_pair, if_neg (lt_irrefl x)]

/-- Witness for C7: both branches at concrete inputs.  With the fresh
agent (epsilon 1) and draw 0 the random index 1 is returned; with an agent
whose epsilon is 0 and draw 1 the argmax branch runs. -/
theorem act_epsilon_greedy_witness :
    ((0:ℚ) ≤ initAgent.epsilon
      ∧ (act initAgent (TrafficLevel.low, TrafficLevel.low) 0
          ⟨1, by decide⟩).1 = 1)
  ∧ (({ q_table := [], epsilon := 0 } : Agent).epsilon < 1
      ∧ (act { q_table := [], epsilon := 0 }
            (TrafficLevel.low, TrafficLevel.low) 1 ⟨0, by decide⟩).1
          = npArgmax ((qFind ([] : QTable)
              (TrafficLevel.low, TrafficLevel.low)).getD
              (List.replicate ACTION_SIZE 0))) := by
  constructor
  · have h : (0:ℚ) ≤ initAgent.epsilon := zero_le_one
    exact ⟨h, ((act_epsilon_greedy initAgent (TrafficLevel.low, TrafficLevel.low)
      0 ⟨1, by decide⟩).1 h).1⟩
  · have h : ({ q_table := [], epsilon := 0 } : Agent).epsilon < 1 := zero_lt_one
    exact ⟨h, (act_epsilon_greedy { q_table := [], epsilon := 0 }
      (TrafficLevel.low, TrafficLevel.low) 1 ⟨0, by decide⟩).2.1 h⟩

/-- The learning update preserves well-formedness of the Q-table. -/
lemma WF_learn {a : Agent} (h : WF a.q_table) (s : AgentState) (action : Nat)
    (r : ℚ) (s2 : AgentState) : WF (learn a s action r s2).q_table := by
  have h1 : WF (qGet a.q_table s).2 := WF_qGet h s
  have h2 : WF (qGet (qGet a.q_table s).2 s2).2 := WF_qGet h1 s2
  have h3 : WF (qGet (qGet (qGet a.q_table s).2 s2).2 s).2 := WF_qGet h2 s
  have hlen : ((qGet (qGet (qGet a.q_table s).2 s2).2 s).1).length
      = ACTION_SIZE := qGet_fst_length h2 s
  simp only [learn]
  exact WF_qSet h3 s (by rw [List.length_set]; exact hlen)

/-- Claim C6: for a never-seen state the first defaultdict read yields the
all-zero vector of length `ACTION_SIZE`; the read-with-insert is
deterministic and idempotent (a second read of the same state returns the
same vector and leaves the table as is); a read of a well-formed table
always yields a vector of length `ACTION_SIZE`; and every sequence of act
and learn operations preserves the invariant that all stored vectors have
length `ACTION_SIZE`. -/
theorem qtable_lazy_init :
    (∀ (t : QTable) (s : AgentState), qFind t s = none →
        (qGet t s).1 = List.replicate ACTION_SIZE 0)
  ∧ (∀ (t : QTable) (s : AgentState),
        qFind (qGet t s).2 s = some ((qGet t s).1))
  ∧ (∀ (t : QTable) (s : AgentState),
        qGet ((qGet t s).2) s = ((qGet t s).1, (qGet t s).2))
  ∧ (∀ (t : QTable) (s : AgentState), WF t →
        ((qGet t s).1).length = ACTION_SIZE)
  ∧ (∀ (a : Agent) (ops : List AgentOp), WF a.q_table →
        WF (runOps a ops).q_table) := by
  refine ⟨?_, qFind_qGet_self, ?_, ?_, ?_⟩
  · intro t s h
    simp only [qGet, h]
  · intro t s
    cases h : qFind t s with
    | some v => simp [qGet, h]
    | none =>
        simp [qGet, h, qFind_append_none h, qFind]
  · intro t s hwf
    exact qGet_fst_length hwf s
  · intro a ops
    induction ops generalizing a with
    | nil => exact fun h => h
    | cons op ops ih =>
        intro h
        rw [runOps]
        apply ih
        cases op with
        | opAct s r rnd =>
            show WF ((act a s r rnd).2).q_table
            rw [act]
            by_cases hr : r ≤ a.epsilon
            · rw [if_pos hr]
              exact h
            · rw [if_neg hr]
              exact WF_qGet h s
        | opLearn s action rw0 s2 =>
            exact WF_learn h s action rw0 s2

/-- Witness for C6 at the fresh agent and a one-step learn sequence. -/
theorem qtable_lazy_init_witness :
    qFind [] (TrafficLevel.low, TrafficLevel.low) = none
  ∧ (qGet [] (TrafficLevel.low, TrafficLevel.low)).1
      = List.replicate ACTION_SIZE 0
  ∧ WF initAgent.q_table
  ∧ WF (runOps initAgent
      [AgentOp.opLearn (TrafficLevel.low, TrafficLevel.low) 0 (-5)
        (TrafficLevel.low, TrafficLevel.high)]).q_table := by
  have hn : qFind [] (TrafficLevel.low, TrafficLevel.low) = none := rfl
  have hwf : WF initAgent.q_table := by
    intro p hp
    exact absurd hp (List.not_mem_nil p)
  exact ⟨hn, qtable_lazy_init.1 _ _ hn, hwf,
    qtable_lazy_init.2.2.2.2 initAgent _ hwf⟩

/-- Claim C4: in any episode where the first or the second telemetry read
fails, the Q-table values are unchanged at every entry, epsilon is not
decayed, and the baseline counters are not advanced — the episode is
voided with no partial update. -/
theorem telemetry_failure_voids_episode (st : EpState)
    (stats1 stats2 : Option PortStatsMap) (r : ℚ) (rnd : Fin ACTION_SIZE)
    (hfail : stats1 = none ∨ stats2 = none) :
    (∀ (s : AgentState) (i : Nat),
        Qval (runEpisode st stats1 stats2 r rnd).agent.q_table s i
          = Qval st.agent.q_table s i)
  ∧ (runEpisode st stats1 stats2 r rnd).agent.epsilon = st.agent.epsilon
  ∧ (runEpisode st stats1 stats2 r rnd).last_port_tx = st.last_port_tx := by
  rcases hfail with h | h
  · subst h
    exact ⟨fun s i => rfl, rfl, rfl⟩
  · subst h
    cases stats1 with
    | none => exact ⟨fun s i => rfl, rfl, rfl⟩
    | some ps1 =>
        refine ⟨?_, ?_, rfl⟩
        · intro s i
          show Qval ((act st.agent
              (discretize_state ps1 st.last_port_tx).1 r rnd).2).q_table s i
            = Qval st.agent.q_table s i
          rw [act]
          by_cases hr : r ≤ st.agent.epsilon
          · rw [if_pos hr]
          · rw [if_neg hr]
            exact Qval_qGet st.agent.q_table _ s i
        · show ((act st.agent
              (discretize_state ps1 st.last_port_tx).1 r rnd).2).epsilon
            = st.agent.epsilon
          rw [act]
          by_cases hr : r ≤ st.agent.epsilon
          · rw [if_pos hr]
          · rw [if_neg hr]

/-- Witness for C4: an episode whose first read fails leaves the fresh
agent and the zero baseline untouched. -/
theorem telemetry_failure_voids_episode_witness :
    ((none : Option PortStatsMap) = none ∨ (none : Option PortStatsMap) = none)
  ∧ Qval (runEpisode ⟨initAgent, (0, 0)⟩ none none 0
        ⟨0, by decide⟩).agent.q_table (TrafficLevel.low, TrafficLevel.low) 0
      = Qval initAgent.q_table (TrafficLevel.low, TrafficLevel.low) 0
  ∧ (runEpisode ⟨initAgent, (0, 0)⟩ none none 0 ⟨0, by decide⟩).agent.epsilon
      = initAgent.epsilon
  ∧ (runEpisode ⟨initAgent, (0, 0)⟩ none none 0 ⟨0, by decide⟩).last_port_tx
      = (0, 0) := by
  have h := telemetry_failure_voids_episode ⟨initAgent, (0, 0)⟩ none none 0
    ⟨0, by decide⟩ (Or.inl rfl)
  exact ⟨Or.inl rfl, h.1 _ 0, h.2.1, h.2.2⟩

/-- Claim C3: on a completed episode, `learn` rewrites exactly the entry
Q(s, action) to (1 - alpha) * Q(s, action) + alpha * (reward + gamma *
max over next actions of Q(next_state, .)), with alpha = LEARNING_RATE =
1/10 and gamma = GAMMA = 9/10; every other entry keeps its value; and the
completed branch of the episode loop applies `learn` exactly once, to the
observed transition. -/
theorem learn_bellman (a : Agent) (s : AgentState) (action : Nat) (r : ℚ)
    (s2 : AgentState) (hwf : WF a.q_table) (hact : action < ACTION_SIZE) :
    (LEARNING_RATE = 1 / 10 ∧ GAMMA = 9 / 10)
  ∧ Qval (learn a s action r s2).q_table s action
      = (1 - LEARNING_RATE) * Qval a.q_table s action
        + LEARNING_RATE * (r + GAMMA * max (Qval a.q_table s2 0) (Qval a.q_table s2 1))
  ∧ (∀ (s3 : AgentState) (i : Nat), s3 ≠ s ∨ i ≠ action →
      Qval (learn a s action r s2).q_table s3 i = Qval a.q_table s3 i)
  ∧ (∀ (st : EpState) (ps1 ps2 : PortStatsMap) (rr : ℚ) (rnd : Fin ACTION_SIZE),
      (runEpisode st (some ps1) (some ps2) rr rnd).agent
        = learn (act st.agent (discretize_state ps1 st.last_port_tx).1 rr rnd).2
            (discretize_state ps1 st.last_port_tx).1
            (act st.agent (discretize_state ps1 st.last_port_tx).1 rr rnd).1
            ((calculate_reward
              (discretize_state ps2
                (discretize_state ps1 st.last_port_tx).2.1).2.2 : ℤ) : ℚ)
            (discretize_state ps2
              (discretize_state ps1 st.last_port_tx).2.1).1) := by
  have hfind1 := qFind_qGet_self a.q_table s
  have hwf1 : WF (qGet a.q_table s).2 := WF_qGet hwf s
  have hlen1 : ((qGet a.q_table s).1).length = ACTION_SIZE :=
    qGet_fst_length hwf s
  have hlen2 : ((qGet (qGet a.q_table s).2 s2).1).length = ACTION_SIZE :=
    qGet_fst_length hwf1 s2
  have hfind3 : qFind (qGet (qGet a.q_table s).2 s2).2 s
      = some ((qGet a.q_table s).1) := qFind_qGet_found hfind1 s2
  have hg3 : qGet (qGet (qGet a.q_table s).2 s2).2 s
      = ((qGet a.q_table s).1, (qGet (qGet a.q_table s).2 s2).2) := by
    rw [qGet, hfind3]
  have hlearn : (learn a s action r s2).q_table
      = qSet (qGet (qGet a.q_table s).2 s2).2 s
          (((qGet a.q_table s).1).set action
            ((1 - LEARNING_RATE) * (((qGet a.q_table s).1).getD action 0)
              + LEARNING_RATE * (r + GAMMA * npMax ((qGet (qGet a.q_table s).2 s2).1)))) := by
    simp only [learn, hg3]
  have hmax : npMax ((qGet (qGet a.q_table s).2 s2).1)
      = max (Qval a.q_table s2 0) (Qval a.q_table s2 1) := by
    rw [npMax_of_length_two hlen2, qGet_fst_getD, qGet_fst_getD,
      Qval_qGet, Qval_qGet]
  obtain ⟨x, y, hxy⟩ := length_two_eq hlen1
  refine ⟨⟨rfl, rfl⟩, ?_, ?_, ?_⟩
  · rw [hlearn, Qval, qFind_qSet_self, hfind3]
    simp only [Option.map_some', Option.getD_some]
    rw [hmax, hxy, getD_pair_set_self x y _ hact, ← hxy, qGet_fst_getD]
  · intro s3 i hne
    by_cases hs3 : s3 = s
    · subst hs3
      have hne2 : i ≠ action := by
        rcases hne with h | h
        · exact absurd rfl h
        · exact h
      rw [hlearn, Qval, qFind_qSet_self, hfind3]
      simp only [Option.map_some', Option.getD_some]
      rw [hxy, getD_pair_set_ne x y _ hne2, ← hxy, qGet_fst_getD]
    · rw [hlearn, Qval, qFind_qSet_ne _ _ hs3]
      show Qval ((qGet (qGet a.q_table s).2 s2).2) s3 i = Qval a.q_table s3 i
      rw [Qval_qGet, Qval_qGet]
  · intro st ps1 ps2 rr rnd
    rfl

/-- Witness for C3: one learn step of the fresh agent at reward 1. -/
theorem learn_bellman_witness :
    WF initAgent.q_table ∧ (0:Nat) < ACTION_SIZE ∧
    Qval (learn initAgent (TrafficLevel.low, TrafficLevel.low) 0 1
        (TrafficLevel.low, TrafficLevel.low)).q_table
        (TrafficLevel.low, TrafficLevel.low) 0
      = (1 - LEARNING_RATE)
          * Qval initAgent.q_table (TrafficLevel.low, TrafficLevel.low) 0
        + LEARNING_RATE * (1 + GAMMA * max
            (Qval initAgent.q_table (TrafficLevel.low, TrafficLevel.low) 0)
            (Qval initAgent.q_table (TrafficLevel.low, TrafficLevel.low) 1)) := by
  have hwf : WF initAgent.q_table := fun p hp => absurd hp (List.not_mem_nil p)
  have hact : (0:Nat) < ACTION_SIZE := by decide
  exact ⟨hwf, hact, (learn_bellman initAgent (TrafficLevel.low, TrafficLevel.low)
    0 1 (TrafficLevel.low, TrafficLevel.low) hwf hact).2.1⟩

/-- Witness for C10: an empty stats mapping with baseline (5, 7). -/
theorem discretize_state_missing_device_witness :
    (dictFind ([] : PortStatsMap) ("1") = none ∨
      ∀ p ∈ dictGet ([] : PortStatsMap) ("1"), p.port_no ≠ 2 ∧ p.port_no ≠ 3)
  ∧ (0:Int) ≤ ((5:Int), (7:Int)).1
  ∧ (0:Int) ≤ ((5:Int), (7:Int)).2
  ∧ discretize_state [] (5, 7)
      = ((TrafficLevel.low, TrafficLevel.low), (0, 0), (0, 0)) := by
  refine ⟨Or.inl rfl, by decide, by decide, ?_⟩
  exact discretize_state_missing_device [] (5, 7) (Or.inl rfl)
    (by decide) (by decide)
